import Mathlib

/-!
Verification of the langfuse-go asynchronous batch-delivery engine
(`batch.go`, `errors.go`) against its natural-language specification.

The Go code is shallowly embedded: the transport is a function from the
attempt index to its observable result, the event queue is a list, the
processor's channels-and-flag lifecycle is an explicit record, and the
background loop is a function over a serialized sequence of the three
select cases (dequeue, timer tick, stop signal).
-/

namespace Langfuse

/-- One telemetry record, mirroring `BatchEvent` in `batch.go` (the payload
is opaque to the queue and accumulator, so it is omitted; a zero
timestamp plays the role of Go's `time.Time` zero value). -/
structure BatchEvent where
  id : String
  type : String
  timestamp : Nat
  deriving Repr, DecidableEq

/-- The observable outcome of one call to the HTTP transport inside
`sendBatch`: either the request itself failed (network error), or a
response with the given status code came back. -/
inductive TransportResult where
  | networkError
  | status (code : Nat)
  deriving Repr, DecidableEq

/-- The error values `sendBatch` can return: `apiError c` embeds
`&APIError{StatusCode: c}` from `errors.go`; `wrapped` stands for any
non-`APIError` error (e.g. the wrapped network error from
`fmt.Errorf("failed to execute request: %w", err)`), which the retry
loop's type assertion `err.(*APIError)` does not match. -/
inductive SendError where
  | apiError (statusCode : Nat)
  | wrapped
  deriving Repr, DecidableEq

/-- Embedding of `sendBatch` (`batch.go:411-484`): an empty batch returns
nil without touching the transport; otherwise the transport is called
once and any status other than 200 (`StatusOK`), 201 (`StatusCreated`)
or 207 (`StatusMultiStatus`) becomes an `APIError` carrying that status.
`none` is Go's nil error (success). -/
def sendBatch (events : List BatchEvent) (transport : TransportResult) :
    Option SendError :=
  if events.length = 0 then none
  else
    match transport with
    | .networkError => some .wrapped
    | .status c =>
        if c = 200 ∨ c = 201 ∨ c = 207 then none
        else some (.apiError c)

/-- The retry loop's terminal/transient test (`batch.go:391-396`): an
`APIError` with `400 <= StatusCode < 500` and `StatusCode != 429` is
terminal (do not retry); everything else is transient. -/
def isTerminal : SendError → Bool
  | .apiError c => decide (400 ≤ c) && decide (c < 500) && decide (c ≠ 429)
  | .wrapped => false

/-- What one run of `sendBatchWithRetry` did: how many times `sendBatch`
was called, the sequence of `time.Sleep` delays in order, and the value
of `err` after the loop (`none` = the loop returned on success). -/
structure RetryResult where
  attempts : Nat
  sleeps : List Nat
  finalErr : Option SendError
  deriving Repr, DecidableEq

/-- The body of `sendBatchWithRetry`'s `for` loop (`batch.go:384-402`),
unrolled by recursion on the number of permitted further iterations.
`attempt` is the loop counter, `remaining = MaxRetries - attempt` (so
Go's `attempt < MaxRetries` guard is `remaining` being a successor), and
`delay` is the current backoff delay. -/
def retryGo (events : List BatchEvent) (transport : Nat → TransportResult)
    (attempt remaining delay : Nat) : RetryResult :=
  match sendBatch events (transport attempt) with
  | none => ⟨1, [], none⟩
  | some e =>
      if isTerminal e then ⟨1, [], some e⟩
      else
        match remaining with
        | 0 => ⟨1, [], some e⟩
        | r + 1 =>
            let rest := retryGo events transport (attempt + 1) r (delay * 2)
            ⟨rest.attempts + 1, delay :: rest.sleeps, rest.finalErr⟩

/-- Embedding of `sendBatchWithRetry` (`batch.go:380-408`): run the loop
starting at attempt 0 with the configured initial delay; afterwards, if
`err` is non-nil and `OnError` is configured, call it once with the
final error and the batch. The second component lists the observer
invocations (error, batch) in order. -/
def sendBatchWithRetry (events : List BatchEvent)
    (transport : Nat → TransportResult) (maxRetries retryDelay : Nat)
    (onErrorSet : Bool) : RetryResult × List (SendError × List BatchEvent) :=
  let r := retryGo events transport 0 maxRetries retryDelay
  (r, match r.finalErr with
      | some e => if onErrorSet then [(e, events)] else []
      | none => [])

/-- Errors returned at enqueue time (`batch.go:160` and `batch.go:175`):
`notRunning` is `"batch processor is not running"`, `queueFull` is
`"event queue is full"`. -/
inductive ProcError where
  | notRunning
  | queueFull
  deriving Repr, DecidableEq

/-- The state of a `BatchProcessor` as seen by producers: the `running`
flag (mutex-guarded in Go; operations are serialized here) and the
buffered channel `eventQueue`, a FIFO list bounded by `queueSize`
(`cap(bp.eventQueue)`). -/
structure ProcState where
  running : Bool
  queue : List BatchEvent
  queueSize : Nat
  deriving Repr, DecidableEq

/-- Embedding of `Enqueue` (`batch.go:156-177`): fail with not-running if
the flag is down; otherwise assign the fresh identifier when `event.ID`
is empty and the current time when the timestamp is zero, then do a
non-blocking channel send: append if there is room, else fail with
queue-full. The state is returned unchanged on failure. -/
def Enqueue (s : ProcState) (e : BatchEvent) (freshId : String) (now : Nat) :
    ProcState × Option ProcError :=
  if s.running = false then (s, some .notRunning)
  else
    let e1 := if e.id = "" then { e with id := freshId } else e
    let e2 := if e1.timestamp = 0 then { e1 with timestamp := now } else e1
    if s.queue.length < s.queueSize then
      ({ s with queue := s.queue ++ [e2] }, none)
    else (s, some .queueFull)

/-- Embedding of `QueueLength` (`batch.go:306-308`): `len(bp.eventQueue)`. -/
def QueueLength (s : ProcState) : Nat :=
  s.queue.length

/-- `Enqueue` iterated over a list of events with per-event fresh
identifiers and timestamps, collecting the per-call results. -/
def enqueueAll (s : ProcState) : List (BatchEvent × String × Nat) →
    ProcState × List (Option ProcError)
  | [] => (s, [])
  | (e, fid, now) :: rest =>
      let r := Enqueue s e fid now
      let tail := enqueueAll r.1 rest
      (tail.1, r.2 :: tail.2)

/-- Embedding of `drainQueue` (`batch.go:367-377`): the non-blocking
receive loop removes exactly the events currently buffered, in order,
and leaves the queue empty — on a serialized snapshot this is the whole
queue list. -/
def drainQueue (s : ProcState) : List BatchEvent × ProcState :=
  (s.queue, { s with queue := [] })

/-- Embedding of `Flush` (`batch.go:311-317`) together with what it
observably does: drain the queue, return nil if nothing was buffered,
otherwise call `sendBatch` exactly once on the whole drain. The result
records how many `sendBatch` calls were made (the claims about the
delivery path turn on this count) and the returned error. Note the Go
code has no `running` check here and calls `sendBatch`, not
`sendBatchWithRetry`. -/
def Flush (s : ProcState) (transport : Nat → TransportResult) :
    ProcState × Nat × Option SendError :=
  let d := drainQueue s
  if d.1.length = 0 then (d.2, 0, none)
  else (d.2, 1, sendBatch d.1 (transport 0))

/-- The batches `Flush` hands to a delivery attempt: the single drained
batch when non-empty, nothing otherwise. -/
def flushSentBatches (s : ProcState) : List (List BatchEvent) :=
  if s.queue.length = 0 then [] else [s.queue]

/-- The stop-signal drain of `processLoop` (`batch.go:344-361`): pull
events from the queue without blocking; each time the working batch
reaches `MaxBatchSize`, flush it and start a new one; when the queue is
exhausted, flush the final batch exactly when it is non-empty and
return. Produces the flushed batches in order. -/
def drainStep (m : Nat) (batch : List BatchEvent) :
    List BatchEvent → List (List BatchEvent)
  | [] => if batch.length > 0 then [batch] else []
  | e :: rest =>
      let b := batch ++ [e]
      if m ≤ b.length then b :: drainStep m [] rest
      else drainStep m b rest

/-- One serialized step of `processLoop`'s `select` (`batch.go:329-362`):
a dequeued event, a ticker tick, or the stop signal with the queue
contents buffered at that moment. -/
inductive LoopInput where
  | dequeue (e : BatchEvent)
  | tick
  | stop (queued : List BatchEvent)
  deriving Repr, DecidableEq

/-- Embedding of `processLoop` (`batch.go:320-364`) run over a serialized
sequence of select outcomes, starting from working batch `batch`:
on dequeue append and flush when the batch reaches `m = MaxBatchSize`;
on tick flush a non-empty batch; on the stop signal run the drain and
terminate. Produces every batch handed to `sendBatchWithRetry`, in
order. -/
def processLoopRun (m : Nat) (batch : List BatchEvent) :
    List LoopInput → List (List BatchEvent)
  | [] => []
  | .dequeue e :: rest =>
      let b := batch ++ [e]
      if m ≤ b.length then b :: processLoopRun m [] rest
      else processLoopRun m b rest
  | .tick :: rest =>
      if batch.length > 0 then batch :: processLoopRun m [] rest
      else processLoopRun m batch rest
  | .stop queued :: _ => drainStep m batch queued

/-- The lifecycle-relevant state of a `BatchProcessor`: the `running`
flag, whether `stopChan` and `doneChan` have been closed (Go channels
cannot be re-opened, and closing one twice panics — `doubleClose`
records that a second close was attempted), and how many `processLoop`
goroutines are currently alive. `Start` never recreates the channels. -/
structure LifecycleState where
  running : Bool
  stopClosed : Bool
  doneClosed : Bool
  activeLoops : Nat
  doubleClose : Bool
  deriving Repr, DecidableEq

/-- The state of a freshly constructed processor (`NewBatchProcessor`,
`batch.go:111-117`): not running, both channels open, no loop. -/
def initialLifecycle : LifecycleState :=
  ⟨false, false, false, 0, false⟩

/-- Embedding of `Start` (`batch.go:121-132`): under the mutex, return at
once if already running; otherwise set the flag and spawn one
`processLoop` goroutine. The channels are left as they are. -/
def Start (s : LifecycleState) : LifecycleState :=
  if s.running then s
  else { s with running := true, activeLoops := s.activeLoops + 1 }

/-- What `Stop` reports before any waiting: nil immediately when the
processor was not running, or the stop signal was issued and the caller
now blocks on `doneChan` (the timeout race is timing, left abstract). -/
inductive StopRet where
  | nilNotRunning
  | signalled
  deriving Repr, DecidableEq

/-- Embedding of `Stop`'s state transition (`batch.go:135-144`): under the
mutex, return nil at once if not running; otherwise clear the flag and
`close(bp.stopChan)` — a close that panics if the channel was already
closed. -/
def Stop (s : LifecycleState) : LifecycleState × StopRet :=
  if s.running = false then (s, .nilNotRunning)
  else
    ({ s with running := false,
              stopClosed := true,
              doubleClose := s.doubleClose || s.stopClosed }, .signalled)

/-- A `processLoop` goroutine observing the closed `stopChan`, finishing
its drain and returning: its deferred `close(bp.doneChan)`
(`batch.go:322`) runs, panicking if `doneChan` was already closed. Only
applicable once the stop signal is visible (`s.stopClosed = true`). -/
def loopFinish (s : LifecycleState) : LifecycleState :=
  { s with activeLoops := s.activeLoops - 1,
           doneClosed := true,
           doubleClose := s.doubleClose || s.doneClosed }

/-! ### Lemmas about the retry loop -/

theorem retryGo_of_success {events : List BatchEvent}
    {transport : Nat → TransportResult} {attempt : Nat} (remaining delay : Nat)
    (h : sendBatch events (transport attempt) = none) :
    retryGo events transport attempt remaining delay = ⟨1, [], none⟩ := by
  unfold retryGo
  rw [h]

theorem retryGo_of_terminal {events : List BatchEvent}
    {transport : Nat → TransportResult} {attempt : Nat} (remaining delay : Nat)
    {e : SendError} (h : sendBatch events (transport attempt) = some e)
    (ht : isTerminal e = true) :
    retryGo events transport attempt remaining delay = ⟨1, [], some e⟩ := by
  unfold retryGo
  rw [h]
  simp [ht]

theorem retryGo_of_transient_zero {events : List BatchEvent}
    {transport : Nat → TransportResult} {attempt : Nat} (delay : Nat)
    {e : SendError} (h : sendBatch events (transport attempt) = some e)
    (ht : isTerminal e = false) :
    retryGo events transport attempt 0 delay = ⟨1, [], some e⟩ := by
  unfold retryGo
  rw [h]
  simp [ht]

theorem retryGo_of_transient_succ {events : List BatchEvent}
    {transport : Nat → TransportResult} {attempt : Nat} (r delay : Nat)
    {e : SendError} (h : sendBatch events (transport attempt) = some e)
    (ht : isTerminal e = false) :
    retryGo events transport attempt (r + 1) delay =
      ⟨(retryGo events transport (attempt + 1) r (delay * 2)).attempts + 1,
        delay :: (retryGo events transport (attempt + 1) r (delay * 2)).sleeps,
        (retryGo events transport (attempt + 1) r (delay * 2)).finalErr⟩ := by
  conv_lhs => unfold retryGo
  rw [h]
  simp [ht]

theorem retryGo_attempts_pos (events : List BatchEvent)
    (transport : Nat → TransportResult) (attempt remaining delay : Nat) :
    1 ≤ (retryGo events transport attempt remaining delay).attempts := by
  cases h : sendBatch events (transport attempt) with
  | none => rw [retryGo_of_success remaining delay h]
  | some e =>
      cases ht : isTerminal e with
      | true => rw [retryGo_of_terminal remaining delay h ht]
      | false =>
          cases remaining with
          | zero => rw [retryGo_of_transient_zero delay h ht]
          | succ r =>
              rw [retryGo_of_transient_succ r delay h ht]
              exact Nat.le_add_left 1 _

theorem retryGo_attempts_le (events : List BatchEvent)
    (transport : Nat → TransportResult) (remaining : Nat) :
    ∀ attempt delay,
      (retryGo events transport attempt remaining delay).attempts ≤ remaining + 1 := by
  induction remaining with
  | zero =>
      intro attempt delay
      cases h : sendBatch events (transport attempt) with
      | none => rw [retryGo_of_success 0 delay h]
      | some e =>
          cases ht : isTerminal e with
          | true => rw [retryGo_of_terminal 0 delay h ht]
          | false => rw [retryGo_of_transient_zero delay h ht]
  | succ r ih =>
      intro attempt delay
      cases h : sendBatch events (transport attempt) with
      | none =>
          rw [retryGo_of_success (r + 1) delay h]
          exact Nat.le_add_left 1 _
      | some e =>
          cases ht : isTerminal e with
          | true =>
              rw [retryGo_of_terminal (r + 1) delay h ht]
              exact Nat.le_add_left 1 _
          | false =>
              rw [retryGo_of_transient_succ r delay h ht]
              exact Nat.succ_le_succ (ih (attempt + 1) (delay * 2))

theorem retryGo_sleeps_backoff (events : List BatchEvent)
    (transport : Nat → TransportResult) (remaining : Nat) :
    ∀ attempt delay,
      (retryGo events transport attempt remaining delay).sleeps =
        (List.range ((retryGo events transport attempt remaining delay).attempts - 1)).map
          (fun i => delay * 2 ^ i) := by
  induction remaining with
  | zero =>
      intro attempt delay
      cases h : sendBatch events (transport attempt) with
      | none => rw [retryGo_of_success 0 delay h]; simp
      | some e =>
          cases ht : isTerminal e with
          | true => rw [retryGo_of_terminal 0 delay h ht]; simp
          | false => rw [retryGo_of_transient_zero delay h ht]; simp
  | succ r ih =>
      intro attempt delay
      cases h : sendBatch events (transport attempt) with
      | none => rw [retryGo_of_success (r + 1) delay h]; simp
      | some e =>
          cases ht : isTerminal e with
          | true => rw [retryGo_of_terminal (r + 1) delay h ht]; simp
          | false =>
              rw [retryGo_of_transient_succ r delay h ht]
              have hpos := retryGo_attempts_pos events transport (attempt + 1) r (delay * 2)
              obtain ⟨k, hk⟩ := Nat.exists_eq_add_of_le hpos
              have hk2 : (retryGo events transport (attempt + 1) r (delay * 2)).attempts
                  = k + 1 := by omega
              have hrec := ih (attempt + 1) (delay * 2)
              rw [hk2] at hrec
              simp only [hk2, hrec, Nat.add_sub_cancel, List.range_succ_eq_map,
                List.map_cons, List.map_map, pow_zero, mul_one, List.cons.injEq]
              refine ⟨trivial, List.map_congr_left ?_⟩
              intro i _
              simp only [Function.comp_apply, pow_succ]
              ring

theorem retryGo_prior_attempts_transient (events : List BatchEvent)
    (transport : Nat → TransportResult) (remaining : Nat) :
    ∀ attempt delay i,
      i + 1 < (retryGo events transport attempt remaining delay).attempts →
      ∃ e, sendBatch events (transport (attempt + i)) = some e ∧
        isTerminal e = false := by
  induction remaining with
  | zero =>
      intro attempt delay i hi
      cases h : sendBatch events (transport attempt) with
      | none => rw [retryGo_of_success 0 delay h] at hi; simp at hi
      | some e =>
          cases ht : isTerminal e with
          | true => rw [retryGo_of_terminal 0 delay h ht] at hi; simp at hi
          | false => rw [retryGo_of_transient_zero delay h ht] at hi; simp at hi
  | succ r ih =>
      intro attempt delay i hi
      cases h : sendBatch events (transport attempt) with
      | none => rw [retryGo_of_success (r + 1) delay h] at hi; simp at hi
      | some e =>
          cases ht : isTerminal e with
          | true => rw [retryGo_of_terminal (r + 1) delay h ht] at hi; simp at hi
          | false =>
              rw [retryGo_of_transient_succ r delay h ht] at hi
              simp only at hi
              cases i with
              | zero => exact ⟨e, by simpa using h, ht⟩
              | succ j =>
                  have hj : j + 1 <
                      (retryGo events transport (attempt + 1) r (delay * 2)).attempts := by
                    omega
                  obtain ⟨e', he', hte'⟩ := ih (attempt + 1) (delay * 2) j hj
                  refine ⟨e', ?_, hte'⟩
                  have : attempt + 1 + j = attempt + (j + 1) := by omega
                  rwa [this] at he'

theorem retryGo_success_last (events : List BatchEvent)
    (transport : Nat → TransportResult) (remaining : Nat) :
    ∀ attempt delay,
      (retryGo events transport attempt remaining delay).finalErr = none →
      sendBatch events
        (transport (attempt +
          ((retryGo events transport attempt remaining delay).attempts - 1))) = none := by
  induction remaining with
  | zero =>
      intro attempt delay hf
      cases h : sendBatch events (transport attempt) with
      | none => rw [retryGo_of_success 0 delay h]; simpa using h
      | some e =>
          cases ht : isTerminal e with
          | true => rw [retryGo_of_terminal 0 delay h ht] at hf; simp at hf
          | false => rw [retryGo_of_transient_zero delay h ht] at hf; simp at hf
  | succ r ih =>
      intro attempt delay hf
      cases h : sendBatch events (transport attempt) with
      | none => rw [retryGo_of_success (r + 1) delay h]; simpa using h
      | some e =>
          cases ht : isTerminal e with
          | true => rw [retryGo_of_terminal (r + 1) delay h ht] at hf; simp at hf
          | false =>
              rw [retryGo_of_transient_succ r delay h ht] at hf ⊢
              simp only at hf ⊢
              have hpos := retryGo_attempts_pos events transport (attempt + 1) r (delay * 2)
              have hrec := ih (attempt + 1) (delay * 2) hf
              have heq : attempt + 1 +
                  ((retryGo events transport (attempt + 1) r (delay * 2)).attempts - 1) =
                  attempt + ((retryGo events transport (attempt + 1) r (delay * 2)).attempts
                    + 1 - 1) := by
                omega
              rwa [heq] at hrec

/-! ### Lemmas about the shutdown drain and the loop -/

theorem mem_dropLast_cons {α : Type} {x b : α} {l : List α}
    (hx : x ∈ (b :: l).dropLast) : x = b ∨ x ∈ l.dropLast := by
  cases l with
  | nil => simp [List.dropLast] at hx
  | cons y ys =>
      rw [show (b :: y :: ys).dropLast = b :: (y :: ys).dropLast from rfl] at hx
      exact List.mem_cons.mp hx

theorem drainStep_flatten (m : Nat) :
    ∀ (q batch : List BatchEvent), batch.length < m →
      (drainStep m batch q).flatten = batch ++ q := by
  intro q
  induction q with
  | nil =>
      intro batch _
      by_cases hb : batch.length > 0
      · simp [drainStep, hb]
      · have : batch = [] := List.length_eq_zero.mp (by omega)
        simp [drainStep, this]
  | cons e rest ih =>
      intro batch hlt
      by_cases hfull : m ≤ (batch ++ [e]).length
      · have h0 : ([] : List BatchEvent).length < m := by simp; omega
        have hfull2 : m ≤ batch.length + 1 := by simpa using hfull
        simp [drainStep, hfull2, ih [] h0]
      · have hlt2 : (batch ++ [e]).length < m := by omega
        have hfull2 : ¬ m ≤ batch.length + 1 := by simp at hfull; omega
        simp [drainStep, hfull2, ih (batch ++ [e]) hlt2]

theorem drainStep_mem_bounds (m : Nat) :
    ∀ (q batch : List BatchEvent), batch.length < m →
      ∀ b ∈ drainStep m batch q, 0 < b.length ∧ b.length ≤ m := by
  intro q
  induction q with
  | nil =>
      intro batch hlt b hb
      by_cases h0 : batch.length > 0
      · simp [drainStep, h0] at hb
        subst hb
        exact ⟨h0, Nat.le_of_lt hlt⟩
      · simp [drainStep, h0] at hb
  | cons e rest ih =>
      intro batch hlt b hb
      by_cases hfull : m ≤ (batch ++ [e]).length
      · simp only [drainStep, hfull, if_pos, List.mem_cons] at hb
        rcases hb with rfl | hb
        · constructor
          · simp
          · simpa using hfull.antisymm (by simpa using Nat.succ_le_of_lt hlt) |>.ge
        · exact ih [] (by simp; omega) b hb
      · have hlt2 : (batch ++ [e]).length < m := by omega
        simp only [drainStep, hfull, if_neg, not_false_iff] at hb
        exact ih (batch ++ [e]) hlt2 b hb

theorem drainStep_dropLast_full (m : Nat) :
    ∀ (q batch : List BatchEvent), batch.length < m →
      ∀ b ∈ (drainStep m batch q).dropLast, b.length = m := by
  intro q
  induction q with
  | nil =>
      intro batch _ b hb
      by_cases h0 : batch.length > 0 <;>
        simp [drainStep, h0, List.dropLast] at hb
  | cons e rest ih =>
      intro batch hlt b hb
      by_cases hfull : m ≤ (batch ++ [e]).length
      · simp only [drainStep, hfull, if_pos] at hb
        rcases mem_dropLast_cons hb with rfl | hb2
        · have : (batch ++ [e]).length = m := by simp at hfull ⊢; omega
          exact this
        · exact ih [] (by simp; omega) b hb2
      · have hlt2 : (batch ++ [e]).length < m := by omega
        simp only [drainStep, hfull, if_neg, not_false_iff] at hb
        exact ih (batch ++ [e]) hlt2 b hb

theorem drainStep_eq_nil_iff (m : Nat) :
    ∀ (q batch : List BatchEvent), batch.length < m →
      (drainStep m batch q = [] ↔ batch = [] ∧ q = []) := by
  intro q
  induction q with
  | nil =>
      intro batch _
      by_cases h0 : batch.length > 0
      · simp [drainStep, h0]
        intro hbatch
        rw [hbatch] at h0
        simp at h0
      · have : batch = [] := List.length_eq_zero.mp (by omega)
        simp [drainStep, h0, this]
  | cons e rest ih =>
      intro batch hlt
      by_cases hfull : m ≤ (batch ++ [e]).length
      · have hfull2 : m ≤ batch.length + 1 := by simpa using hfull
        simp [drainStep, hfull2]
      · have hlt2 : (batch ++ [e]).length < m := by omega
        simp only [drainStep]
        rw [if_neg hfull, ih (batch ++ [e]) hlt2]
        simp

theorem processLoopRun_bounded (m : Nat) :
    ∀ (inputs : List LoopInput) (batch : List BatchEvent), batch.length < m →
      ∀ b ∈ processLoopRun m batch inputs, b.length ≤ m := by
  intro inputs
  induction inputs with
  | nil => intro batch _ b hb; simp [processLoopRun] at hb
  | cons inp rest ih =>
      intro batch hlt b hb
      cases inp with
      | dequeue e =>
          by_cases hfull : m ≤ (batch ++ [e]).length
          · simp only [processLoopRun, hfull, if_pos, List.mem_cons] at hb
            rcases hb with rfl | hb
            · simp at hfull ⊢; omega
            · exact ih [] (by simp; omega) b hb
          · have hlt2 : (batch ++ [e]).length < m := by omega
            simp only [processLoopRun, hfull, if_neg, not_false_iff] at hb
            exact ih (batch ++ [e]) hlt2 b hb
      | tick =>
          by_cases h0 : batch.length > 0
          · simp only [processLoopRun, h0, if_pos, List.mem_cons] at hb
            rcases hb with rfl | hb
            · exact Nat.le_of_lt hlt
            · exact ih [] (by simp; omega) b hb
          · simp only [processLoopRun, h0, if_neg, not_false_iff] at hb
            exact ih batch hlt b hb
      | stop queued =>
          simp only [processLoopRun] at hb
          exact (drainStep_mem_bounds m queued batch hlt b hb).2

/-! ### Lemmas about Enqueue -/

theorem enqueueAll_ok :
    ∀ (es : List (BatchEvent × String × Nat)) (s : ProcState),
      s.running = true → s.queue.length + es.length ≤ s.queueSize →
      (enqueueAll s es).2 = List.replicate es.length none ∧
      ((enqueueAll s es).1).queue.length = s.queue.length + es.length := by
  intro es
  induction es with
  | nil => intro s _ _; simp [enqueueAll]
  | cons p rest ih =>
      intro s hrun hcap
      obtain ⟨e, fid, now⟩ := p
      have hroom : s.queue.length < s.queueSize := by simp at hcap; omega
      have henq : Enqueue s e fid now =
          ({ s with queue := s.queue ++
              [let e1 := if e.id = "" then { e with id := fid } else e
               if e1.timestamp = 0 then { e1 with timestamp := now } else e1] }, none) := by
        simp [Enqueue, hrun, hroom]
      have hrec := ih (Enqueue s e fid now).1
        (by rw [henq]; exact hrun)
        (by rw [henq]; simp at hcap ⊢; omega)
      rw [henq] at hrec
      constructor
      · simp only [enqueueAll, henq, hrec.1, List.length_cons, List.replicate_succ]
      · simp only [enqueueAll, henq]
        rw [hrec.2]
        simp
        omega

/-! ### Claim theorems: retry policy and delivery classification -/

/-- Claim C1: for every batch and maximum-retry count, `sendBatchWithRetry`
makes at most `1 + MaxRetries` delivery attempts; the pauses taken
between attempts are exactly the unjittered exponential-backoff sequence
`RetryDelay, 2*RetryDelay, 4*RetryDelay, ...` (so the pause before the
2nd attempt is `RetryDelay` and the pause before the 3rd is
`2*RetryDelay`); every attempt before the final one failed with a
transient error (so the loop stops attempting as soon as an attempt
succeeds); and a run that ends in success succeeded on its final
attempt. -/
theorem claim1_retry_attempts_and_backoff (events : List BatchEvent)
    (transport : Nat → TransportResult) (maxRetries retryDelay : Nat)
    (onErrorSet : Bool) :
    ((sendBatchWithRetry events transport maxRetries retryDelay
        onErrorSet).1).attempts ≤ 1 + maxRetries ∧
    ((sendBatchWithRetry events transport maxRetries retryDelay
        onErrorSet).1).sleeps =
      (List.range (((sendBatchWithRetry events transport maxRetries retryDelay
          onErrorSet).1).attempts - 1)).map (fun i => retryDelay * 2 ^ i) ∧
    (∀ i, i + 1 < ((sendBatchWithRetry events transport maxRetries retryDelay
        onErrorSet).1).attempts →
      ∃ e, sendBatch events (transport i) = some e ∧ isTerminal e = false) ∧
    (((sendBatchWithRetry events transport maxRetries retryDelay
        onErrorSet).1).finalErr = none →
      sendBatch events
        (transport (((sendBatchWithRetry events transport maxRetries retryDelay
          onErrorSet).1).attempts - 1)) = none) := by
  simp only [sendBatchWithRetry]
  refine ⟨?_, ?_, ?_, ?_⟩
  · have h := retryGo_attempts_le events transport maxRetries 0 retryDelay
    omega
  · exact retryGo_sleeps_backoff events transport maxRetries 0 retryDelay
  · intro i hi
    have h := retryGo_prior_attempts_transient events transport maxRetries 0
      retryDelay i hi
    simpa using h
  · intro hf
    have h := retryGo_success_last events transport maxRetries 0 retryDelay hf
    simpa using h

/-- Concrete instance of claim C1: with a transport that fails with 500
twice then succeeds and `MaxRetries = 2`, `RetryDelay = 10`: the second
attempt (index 1) was a transient failure, and the final attempt
succeeded. -/
theorem claim1_retry_attempts_and_backoff_witness :
    (∃ e, sendBatch [⟨"a", "trace-create", 1⟩]
        ((fun i => if i < 2 then TransportResult.status 500
          else TransportResult.status 200) 1) = some e ∧
        isTerminal e = false) ∧
    sendBatch [⟨"a", "trace-create", 1⟩]
      ((fun i => if i < 2 then TransportResult.status 500
          else TransportResult.status 200)
        (((sendBatchWithRetry [⟨"a", "trace-create", 1⟩]
            (fun i => if i < 2 then TransportResult.status 500
              else TransportResult.status 200) 2 10 true).1).attempts - 1))
      = none := by
  have h := claim1_retry_attempts_and_backoff [⟨"a", "trace-create", 1⟩]
    (fun i => if i < 2 then TransportResult.status 500
      else TransportResult.status 200) 2 10 true
  exact ⟨h.2.2.1 1 (by decide), h.2.2.2 (by decide)⟩

/-- Claim C2: a terminal failure (an `APIError` with a 4xx status other
than 429) on the first attempt makes `sendBatchWithRetry` stop after
exactly one delivery attempt with that error as the final one, invoking
the configured error observer exactly once with the failed batch and the
final error; a transient first failure is retried whenever
`MaxRetries ≥ 1`; and the classification is: 4xx other than 429 is
terminal, while network errors, 429 and 5xx are transient. -/
theorem claim2_terminal_one_attempt_observer (events : List BatchEvent)
    (maxRetries retryDelay : Nat) :
    (∀ (transport : Nat → TransportResult) (e₀ : SendError),
      sendBatch events (transport 0) = some e₀ → isTerminal e₀ = true →
      (sendBatchWithRetry events transport maxRetries retryDelay
          true).1.attempts = 1 ∧
      (sendBatchWithRetry events transport maxRetries retryDelay
          true).1.finalErr = some e₀ ∧
      (sendBatchWithRetry events transport maxRetries retryDelay
          true).2 = [(e₀, events)]) ∧
    (∀ (transport : Nat → TransportResult) (e₀ : SendError),
      sendBatch events (transport 0) = some e₀ → isTerminal e₀ = false →
      1 ≤ maxRetries →
      2 ≤ (sendBatchWithRetry events transport maxRetries retryDelay
        true).1.attempts) ∧
    isTerminal .wrapped = false ∧
    (∀ c, 400 ≤ c → c < 500 → c ≠ 429 → isTerminal (.apiError c) = true) ∧
    (∀ c, c = 429 ∨ 500 ≤ c → isTerminal (.apiError c) = false) := by
  refine ⟨?_, ?_, rfl, ?_, ?_⟩
  · intro transport e₀ h ht
    simp only [sendBatchWithRetry]
    rw [retryGo_of_terminal maxRetries retryDelay h ht]
    simp
  · intro transport e₀ h ht hmr
    obtain ⟨r, rfl⟩ : ∃ r, maxRetries = r + 1 :=
      ⟨maxRetries - 1, by omega⟩
    simp only [sendBatchWithRetry]
    rw [retryGo_of_transient_succ r retryDelay h ht]
    have := retryGo_attempts_pos events transport 1 r (retryDelay * 2)
    simp
    omega
  · intro c h1 h2 h3
    simp [isTerminal]
    omega
  · intro c hc
    simp [isTerminal]
    omega

/-- Concrete instance of claim C2: a transport that always answers 400
causes exactly one attempt and one observer invocation carrying the
batch and the 400 error; a transport that always answers 429 with
`MaxRetries = 3` is retried. -/
theorem claim2_terminal_one_attempt_observer_witness :
    (sendBatchWithRetry [⟨"a", "trace-create", 1⟩]
        (fun _ => TransportResult.status 400) 3 10 true).1.attempts = 1 ∧
    (sendBatchWithRetry [⟨"a", "trace-create", 1⟩]
        (fun _ => TransportResult.status 400) 3 10 true).2 =
      [(SendError.apiError 400, [⟨"a", "trace-create", 1⟩])] ∧
    2 ≤ (sendBatchWithRetry [⟨"a", "trace-create", 1⟩]
        (fun _ => TransportResult.status 429) 3 10 true).1.attempts := by
  have h := claim2_terminal_one_attempt_observer [⟨"a", "trace-create", 1⟩] 3 10
  exact ⟨(h.1 (fun _ => .status 400) (.apiError 400) (by decide) (by decide)).1,
    (h.1 (fun _ => .status 400) (.apiError 400) (by decide) (by decide)).2.2,
    h.2.1 (fun _ => .status 429) (.apiError 429) (by decide) (by decide)
      (by decide)⟩

/-- Claim C10: a delivery attempt on a non-empty batch succeeds exactly
when the transport answers 200, 201 or 207; any other status yields an
`APIError` carrying that status code; a 3xx response is not terminal, so
a constant-3xx transport is retried whenever `MaxRetries ≥ 1`; and a
delivery attempt on an empty batch returns success whatever the
transport would answer (the transport is never consulted). -/
theorem claim10_delivery_attempt_statuses (events : List BatchEvent)
    (c : Nat) (tr : TransportResult) (maxRetries d : Nat) (ob : Bool) :
    (events ≠ [] →
      (sendBatch events (.status c) = none ↔ (c = 200 ∨ c = 201 ∨ c = 207))) ∧
    (events ≠ [] → ¬(c = 200 ∨ c = 201 ∨ c = 207) →
      sendBatch events (.status c) = some (.apiError c)) ∧
    (300 ≤ c → c < 400 → isTerminal (.apiError c) = false) ∧
    (events ≠ [] → 300 ≤ c → c < 400 → 1 ≤ maxRetries →
      2 ≤ (sendBatchWithRetry events (fun _ => .status c)
        maxRetries d ob).1.attempts) ∧
    sendBatch [] tr = none := by
  have hne : events ≠ [] → ¬events.length = 0 := by
    intro h
    simpa using h
  refine ⟨?_, ?_, ?_, ?_, rfl⟩
  · intro h
    simp only [sendBatch, if_neg (hne h)]
    constructor
    · intro hnone
      by_contra hc
      simp [hc] at hnone
    · intro hc
      simp [hc]
  · intro h hc
    simp [sendBatch, hne h, hc]
  · intro h1 h2
    simp [isTerminal]
    omega
  · intro h h1 h2 hmr
    have hsend : sendBatch events (.status c) = some (.apiError c) := by
      simp [sendBatch, hne h]
      omega
    have hterm : isTerminal (.apiError c) = false := by
      simp [isTerminal]
      omega
    obtain ⟨r, rfl⟩ : ∃ r, maxRetries = r + 1 := ⟨maxRetries - 1, by omega⟩
    simp only [sendBatchWithRetry]
    rw [@retryGo_of_transient_succ events (fun _ => .status c) 0 r d
      (.apiError c) hsend hterm]
    have := retryGo_attempts_pos events (fun _ => .status c) 1 r (d * 2)
    simp
    omega

/-- Concrete instance of claim C10: status 302 on a singleton batch is a
non-success that is classified transient and retried; the empty batch
always succeeds. -/
theorem claim10_delivery_attempt_statuses_witness :
    sendBatch [⟨"a", "trace-create", 1⟩] (.status 302) =
      some (.apiError 302) ∧
    isTerminal (.apiError 302) = false ∧
    2 ≤ (sendBatchWithRetry [⟨"a", "trace-create", 1⟩]
        (fun _ => .status 302) 1 10 true).1.attempts ∧
    sendBatch [] (.status 302) = none := by
  have h := claim10_delivery_attempt_statuses [⟨"a", "trace-create", 1⟩]
    302 (.status 302) 1 10 true
  exact ⟨h.2.1 (by decide) (by decide), h.2.2.1 (by decide) (by decide),
    h.2.2.2.1 (by decide) (by decide) (by decide) (by decide), h.2.2.2.2⟩

/-! ### Claim theorems: batch size bound, Flush, lifecycle -/

/-- Counterexample to claim C3: with `MaxBatchSize = 1` and two events
resident in the queue, the manual Flush drain hands a single batch of
length 2 to the delivery attempt, violating the claimed bound. -/
theorem claim3_flush_exceeds_max_counterexample :
    flushSentBatches
        ⟨true, [⟨"a", "trace-create", 1⟩, ⟨"b", "trace-create", 2⟩], 10⟩ =
      [[⟨"a", "trace-create", 1⟩, ⟨"b", "trace-create", 2⟩]] ∧
    ∃ b ∈ flushSentBatches
        ⟨true, [⟨"a", "trace-create", 1⟩, ⟨"b", "trace-create", 2⟩], 10⟩,
      ¬ b.length ≤ 1 := by
  decide

/-- Claim C3 (amended): every batch the background loop hands to a
delivery attempt — on the size trigger, on a timer tick, and during the
shutdown drain — has length at most `MaxBatchSize`, provided the working
batch starts strictly below `MaxBatchSize` (as it does: the loop flushes
the moment the batch reaches the cap, so the batch re-enters the select
empty); the manual Flush, by contrast, sends the entire non-empty queue
snapshot as one batch, bounded only by the queue contents, which can
exceed `MaxBatchSize`. -/
theorem claim3_loop_batches_bounded (m : Nat) (batch : List BatchEvent)
    (inputs : List LoopInput) (h : batch.length < m) :
    (∀ b ∈ processLoopRun m batch inputs, b.length ≤ m) ∧
    (∀ s : ProcState, s.queue.length ≠ 0 → flushSentBatches s = [s.queue]) := by
  refine ⟨processLoopRun_bounded m inputs batch h, ?_⟩
  intro s hs
  simp [flushSentBatches, hs]

/-- Concrete instance of amended claim C3: a run of the loop with
`MaxBatchSize = 2` flushes only batches of length at most 2, while Flush
on a three-event queue produces that whole queue as one batch. -/
theorem claim3_loop_batches_bounded_witness :
    (∀ b ∈ processLoopRun 2 []
        [LoopInput.dequeue ⟨"a", "trace-create", 1⟩, LoopInput.tick,
          LoopInput.stop [⟨"b", "trace-create", 2⟩, ⟨"c", "trace-create", 3⟩,
            ⟨"d", "trace-create", 4⟩]],
      b.length ≤ 2) ∧
    flushSentBatches ⟨true, [⟨"a", "trace-create", 1⟩, ⟨"b", "trace-create", 2⟩,
        ⟨"c", "trace-create", 3⟩], 10⟩ =
      [[⟨"a", "trace-create", 1⟩, ⟨"b", "trace-create", 2⟩,
        ⟨"c", "trace-create", 3⟩]] := by
  have h := claim3_loop_batches_bounded 2 []
    [LoopInput.dequeue ⟨"a", "trace-create", 1⟩, LoopInput.tick,
      LoopInput.stop [⟨"b", "trace-create", 2⟩, ⟨"c", "trace-create", 3⟩,
        ⟨"d", "trace-create", 4⟩]] (by decide)
  exact ⟨h.1, h.2 _ (by decide)⟩

/-- Counterexample to claim C4: with one event queued and a transport
whose first attempt fails with 500 and later attempts would succeed, the
manual Flush performs a single `sendBatch` call and synchronously
returns the 500 error, whereas the retry-wrapped path the background
loop uses would succeed on the retry and report nothing to the observer.
So Flush does not send through the retry-wrapped delivery path. -/
theorem claim4_flush_not_retry_path_counterexample :
    (Flush ⟨true, [⟨"a", "trace-create", 1⟩], 10⟩
        (fun i => if i = 0 then .status 500 else .status 200)).2 =
      (1, some (.apiError 500)) ∧
    (sendBatchWithRetry [⟨"a", "trace-create", 1⟩]
        (fun i => if i = 0 then .status 500 else .status 200)
        3 10 true).1.finalErr = none ∧
    (sendBatchWithRetry [⟨"a", "trace-create", 1⟩]
        (fun i => if i = 0 then .status 500 else .status 200)
        3 10 true).2 = [] := by
  decide

/-- Claim C4 (amended): for every non-empty queue snapshot, the manual
Flush drains it and performs exactly one direct `sendBatch` delivery
attempt — bypassing the retry wrapper, the terminal/transient
classification and the error observer — synchronously returning that
single attempt's outcome to the caller; when that first attempt
succeeds, its outcome coincides with what the retry-wrapped path would
have produced. -/
theorem claim4_flush_single_direct_attempt (s : ProcState)
    (tr : Nat → TransportResult) (mr d : Nat) (ob : Bool)
    (h : s.queue ≠ []) :
    (Flush s tr).2.1 = 1 ∧
    (Flush s tr).2.2 = sendBatch s.queue (tr 0) ∧
    (sendBatch s.queue (tr 0) = none →
      (sendBatchWithRetry s.queue tr mr d ob).1 = ⟨1, [], none⟩ ∧
      (sendBatchWithRetry s.queue tr mr d ob).2 = []) := by
  have hlen : ¬ s.queue.length = 0 := by simpa using h
  refine ⟨?_, ?_, ?_⟩
  · simp [Flush, drainQueue, hlen]
  · simp [Flush, drainQueue, hlen]
  · intro hok
    simp only [sendBatchWithRetry]
    rw [@retryGo_of_success s.queue tr 0 mr d hok]
    exact ⟨rfl, rfl⟩

/-- Concrete instance of amended claim C4: Flush of a one-event queue
against an always-200 transport makes one attempt returning nil, and the
retry path agrees. -/
theorem claim4_flush_single_direct_attempt_witness :
    (Flush ⟨true, [⟨"a", "trace-create", 1⟩], 10⟩
        (fun _ => .status 200)).2.1 = 1 ∧
    (Flush ⟨true, [⟨"a", "trace-create", 1⟩], 10⟩
        (fun _ => .status 200)).2.2 =
      sendBatch [⟨"a", "trace-create", 1⟩] (.status 200) ∧
    (sendBatchWithRetry [⟨"a", "trace-create", 1⟩]
        (fun _ => .status 200) 3 10 true).1 = ⟨1, [], none⟩ := by
  have h := claim4_flush_single_direct_attempt
    ⟨true, [⟨"a", "trace-create", 1⟩], 10⟩ (fun _ => .status 200) 3 10 true
    (by decide)
  exact ⟨h.1, h.2.1, (h.2.2 (by decide)).1⟩

/-- Counterexample to claim C5: on a stopped processor, Flush does not
fail with the Not-Running condition: with an empty queue it returns nil
and no delivery attempt, and with a queued event it even performs a
delivery attempt while stopped. -/
theorem claim5_flush_no_lifecycle_check_counterexample :
    (Flush ⟨false, [], 10⟩ (fun _ => .networkError)).2 = (0, none) ∧
    (Flush ⟨false, [⟨"a", "trace-create", 1⟩], 10⟩
        (fun _ => .status 200)).2 = (1, none) := by
  decide

/-- Claim C5 (amended): for every processor state outside Running,
Enqueue fails with the Not-Running condition and buffers nothing (the
state is returned unchanged); Flush, however, performs no lifecycle
check at all — its outcome is independent of the running flag — so a
Flush after Stop drains and sends rather than failing with
Not-Running. -/
theorem claim5_enqueue_not_running (s : ProcState) (e : BatchEvent)
    (fid : String) (now : Nat) (tr : Nat → TransportResult)
    (h : s.running = false) :
    Enqueue s e fid now = (s, some .notRunning) ∧
    (Flush s tr).2 = (Flush ⟨true, s.queue, s.queueSize⟩ tr).2 := by
  constructor
  · simp [Enqueue, h]
  · by_cases hq : s.queue = [] <;> simp [Flush, drainQueue, hq]

/-- Concrete instance of amended claim C5: Enqueue on a never-started
processor fails with Not-Running; Flush on the same state behaves as it
would on a running one. -/
theorem claim5_enqueue_not_running_witness :
    Enqueue ⟨false, [], 10⟩ ⟨"a", "trace-create", 1⟩ "id1" 5 =
      (⟨false, [], 10⟩, some .notRunning) ∧
    (Flush ⟨false, [], 10⟩ (fun _ => .networkError)).2 =
      (Flush ⟨true, [], 10⟩ (fun _ => .networkError)).2 := by
  have h := claim5_enqueue_not_running ⟨false, [], 10⟩
    ⟨"a", "trace-create", 1⟩ "id1" 5 (fun _ => .networkError) rfl
  exact h

/-- Claim C6: starting from a Running processor with an empty queue,
enqueuing any N ≤ QueueSize events succeeds every time and `Length()`
then reports N; and on any Running processor whose queue is at capacity,
the next Enqueue fails immediately (non-blocking) with the Queue-Full
condition and leaves the state — in particular the queue contents —
unchanged. -/
theorem claim6_enqueue_capacity (s : ProcState)
    (es : List (BatchEvent × String × Nat))
    (hrun : s.running = true) (hq : s.queue = [])
    (hn : es.length ≤ s.queueSize) :
    ((enqueueAll s es).2 = List.replicate es.length none ∧
      QueueLength (enqueueAll s es).1 = es.length) ∧
    (∀ (s' : ProcState) (e : BatchEvent) (fid : String) (now : Nat),
      s'.running = true → QueueLength s' = s'.queueSize →
      Enqueue s' e fid now = (s', some .queueFull)) := by
  constructor
  · have h := enqueueAll_ok es s hrun (by rw [hq]; simpa using hn)
    refine ⟨h.1, ?_⟩
    rw [QueueLength, h.2, hq]
    simp
  · intro s' e fid now hr hfull
    have hlt : ¬ s'.queue.length < s'.queueSize := by
      rw [QueueLength] at hfull
      omega
    simp [Enqueue, hr, hlt]

/-- Concrete instance of claim C6: three events into an empty queue of
capacity 3 all succeed and the length is 3; the fourth enqueue fails
with Queue-Full and changes nothing. -/
theorem claim6_enqueue_capacity_witness :
    ((enqueueAll ⟨true, [], 3⟩
        [(⟨"a", "trace-create", 1⟩, "i1", 1), (⟨"b", "trace-create", 2⟩, "i2", 2),
          (⟨"c", "trace-create", 3⟩, "i3", 3)]).2 =
      List.replicate 3 none ∧
      QueueLength (enqueueAll ⟨true, [], 3⟩
        [(⟨"a", "trace-create", 1⟩, "i1", 1), (⟨"b", "trace-create", 2⟩, "i2", 2),
          (⟨"c", "trace-create", 3⟩, "i3", 3)]).1 = 3) ∧
    Enqueue ⟨true, [⟨"a", "trace-create", 1⟩, ⟨"b", "trace-create", 2⟩,
        ⟨"c", "trace-create", 3⟩], 3⟩ ⟨"d", "trace-create", 4⟩ "i4" 4 =
      (⟨true, [⟨"a", "trace-create", 1⟩, ⟨"b", "trace-create", 2⟩,
        ⟨"c", "trace-create", 3⟩], 3⟩, some .queueFull) := by
  have h := claim6_enqueue_capacity ⟨true, [], 3⟩
    [(⟨"a", "trace-create", 1⟩, "i1", 1), (⟨"b", "trace-create", 2⟩, "i2", 2),
      (⟨"c", "trace-create", 3⟩, "i3", 3)] rfl rfl (by decide)
  exact ⟨h.1, h.2 _ _ "i4" 4 rfl (by decide)⟩

/-- Claim C7: on receiving the stop signal with working batch `batch` and
queue contents `q`, the loop ignores any later input and terminates
after the drain; the flushed batches concatenate to exactly
`batch ++ q`, in order (everything buffered is drained, nothing is
invented and nothing waits for new arrivals); every flushed batch is
non-empty and at most `MaxBatchSize` long; every flushed batch except
possibly the last is exactly full-size; and nothing is flushed exactly
when batch and queue were both empty. -/
theorem claim7_stop_drain (m : Nat) (batch q : List BatchEvent)
    (rest : List LoopInput) (h : batch.length < m) :
    processLoopRun m batch (.stop q :: rest) = drainStep m batch q ∧
    (drainStep m batch q).flatten = batch ++ q ∧
    (∀ b ∈ drainStep m batch q, 0 < b.length ∧ b.length ≤ m) ∧
    (∀ b ∈ (drainStep m batch q).dropLast, b.length = m) ∧
    (drainStep m batch q = [] ↔ batch = [] ∧ q = []) :=
  ⟨rfl, drainStep_flatten m q batch h, drainStep_mem_bounds m q batch h,
    drainStep_dropLast_full m q batch h, drainStep_eq_nil_iff m q batch h⟩

/-- Concrete instance of claim C7: stop with a one-event working batch
and three queued events under `MaxBatchSize = 2` flushes batches of
sizes 2 and 2, preserving order and draining everything. -/
theorem claim7_stop_drain_witness :
    (drainStep 2 [⟨"a", "trace-create", 1⟩]
        [⟨"b", "trace-create", 2⟩, ⟨"c", "trace-create", 3⟩,
          ⟨"d", "trace-create", 4⟩]).flatten =
      [⟨"a", "trace-create", 1⟩] ++ [⟨"b", "trace-create", 2⟩,
        ⟨"c", "trace-create", 3⟩, ⟨"d", "trace-create", 4⟩] ∧
    (drainStep 2 [⟨"a", "trace-create", 1⟩]
        [⟨"b", "trace-create", 2⟩, ⟨"c", "trace-create", 3⟩,
          ⟨"d", "trace-create", 4⟩] = [] ↔
      [⟨"a", "trace-create", 1⟩] = ([] : List BatchEvent) ∧
      [⟨"b", "trace-create", 2⟩, ⟨"c", "trace-create", 3⟩,
        ⟨"d", "trace-create", 4⟩] = ([] : List BatchEvent)) := by
  have h := claim7_stop_drain 2 [⟨"a", "trace-create", 1⟩]
    [⟨"b", "trace-create", 2⟩, ⟨"c", "trace-create", 3⟩,
      ⟨"d", "trace-create", 4⟩] [] (by decide)
  exact ⟨h.2.1, h.2.2.2.2⟩

/-- Claim C8: the lifecycle transitions are idempotent on the two-valued
state: Start on a Running processor leaves the whole state unchanged —
in particular it spawns no second loop — and Stop on a Stopped processor
leaves the state unchanged and returns nil immediately. -/
theorem claim8_start_stop_idempotent (s : LifecycleState) :
    (s.running = true → Start s = s) ∧
    (s.running = false → Stop s = (s, .nilNotRunning)) := by
  constructor
  · intro h
    simp [Start, h]
  · intro h
    simp [Stop, h]

/-- Concrete instance of claim C8: Start on a running one-loop state is
the identity; Stop on the freshly constructed state returns nil and
changes nothing. -/
theorem claim8_start_stop_idempotent_witness :
    Start ⟨true, false, false, 1, false⟩ = ⟨true, false, false, 1, false⟩ ∧
    Stop initialLifecycle = (initialLifecycle, .nilNotRunning) := by
  have h1 := claim8_start_stop_idempotent ⟨true, false, false, 1, false⟩
  have h2 := claim8_start_stop_idempotent initialLifecycle
  exact ⟨h1.1 rfl, h2.2 rfl⟩

/-- Claim C9: the Stopped-to-Running transition is not re-enterable.
Along the serialized trace Start; Stop; (the loop observes the stop
signal, drains and finishes); Start: the second Start marks the
processor Running and spawns a fresh loop while `stopChan` is still
closed (Start never recreates the channels), so the fresh loop
immediately takes the stop branch, drains and finishes — attempting a
second close of the already-closed `doneChan` — leaving a state that is
marked Running with no live background loop. This refutes the invariant
that every reachable Running state has a loop waiting on the queue. -/
theorem claim9_start_not_reenterable :
    (Start (loopFinish (Stop (Start initialLifecycle)).1)).running = true ∧
    (Start (loopFinish (Stop (Start initialLifecycle)).1)).stopClosed = true ∧
    (loopFinish (Start (loopFinish (Stop (Start initialLifecycle)).1))).running
      = true ∧
    (loopFinish (Start (loopFinish
      (Stop (Start initialLifecycle)).1))).activeLoops = 0 ∧
    (loopFinish (Start (loopFinish
      (Stop (Start initialLifecycle)).1))).doubleClose = true := by
  decide

end Langfuse
